import Mathlib

/-!
Verification of the SetAutoEncoder repository core against its specification.

The development shallowly embeds the numerically relevant parts of the
repository in Lean:

* `prob_chamfer_distance` and its helpers embed
  `src/models/functions/prob_chamfer_distance.py`.  Tensor arithmetic is
  modelled over `ℚ`; a batch of per-element predicted distributions is
  modelled by its pairwise log-likelihood function `logp b j x` (the
  log-likelihood of element `x` under the `j`-th predicted distribution of
  batch item `b`), and the target set by an indexing function `a b i`.
* `OneCycleSchedule` embeds `src/models/optimisers/one_cycle_adam.py`.
  Python's `int(cycle_length * 0.1)` truncation is modelled by natural
  division `cycle_length / 10` (checked to agree with IEEE-754 evaluation
  for every cycle length used in a theorem below).
* `sequence_mask` / `call_mask` embed the mask derivation of
  `SetVariationalAutoEncoderV2.call` (src/models/set_vae_v2.py) and
  `SetAutoEncoder.call` (src/models/set_ae.py).
* `sample_prior_batch` embeds `SetAutoEncoder.sample_prior_batch`
  (src/models/set_ae.py) and `Tspn.sample_prior_batch`
  (src/models/set_autoencoder.py).
* `decode_set` embeds `SetVariationalAutoEncoderV2.decode_set`, with the
  Python arity check of `SetDecoder.call` made explicit.
* `train_vae_step` / `train_size_predictor_step` embed the optimizer
  bookkeeping of `src/mnist_vae.py`.
-/

/-- An element of a set: a feature vector, modelled as a list of rationals. -/
abbrev Elem := List ℚ

/-- Maximum of a list of rationals, as `tf.reduce_max` computes it on a
non-empty axis; the empty case is never reached for valid sizes. -/
def maxQ : List ℚ → ℚ
  | [] => 0
  | x :: xs => xs.foldl max x

/-- Mean of a list of rationals, as `tf.reduce_mean` computes it. -/
def meanQ (l : List ℚ) : ℚ := l.sum / l.length

/-- One row of the pairwise log-likelihood matrix:
`set_dists.log_prob(set_row[i])` broadcasts the single target element `x`
against all `maxSize` predicted element distributions
(prob_chamfer_distance.py line 19). -/
def logProbRow (logp : ℕ → Elem → ℚ) (x : Elem) (maxSize : ℕ) : List ℚ :=
  (List.range maxSize).map fun j => logp j x

/-- Row-by-row assembly of the pairwise matrix: the `for i in range(max_size)`
loop over `tf.split(set, max_size, axis=-2)` followed by `tf.stack`
(prob_chamfer_distance.py lines 16-22).  Entry `[i][j]` is the
log-likelihood of target element `i` under predicted distribution `j`. -/
def rowByRowLogProbs (logp : ℕ → Elem → ℚ) (a : ℕ → Elem) (maxSize : ℕ) :
    List (List ℚ) :=
  (List.range maxSize).map fun i => logProbRow logp (a i) maxSize

/-- The naive full comparison tensor: the target set tiled so that entry
`[i][j]` holds target element `i`, materialised all at once. -/
def comparisonTensor (a : ℕ → Elem) (maxSize : ℕ) : List (List Elem) :=
  (List.range maxSize).map fun i => (List.range maxSize).map fun _ => a i

/-- The naive full-tensor pairwise matrix: score the whole comparison tensor
in one `log_prob` call, the predicted distributions broadcasting across each
row. -/
def fullTensorLogProbs (logp : ℕ → Elem → ℚ) (a : ℕ → Elem) (maxSize : ℕ) :
    List (List ℚ) :=
  (comparisonTensor a maxSize).map fun row =>
    ((List.range maxSize).zip row).map fun p => logp p.1 p.2

/-- The per-item reduction of `prob_chamfer_distance` applied to one batch
item's pairwise matrix `M` (prob_chamfer_distance.py lines 31-42):
trim to the batch-wide largest unpadded dimension `L`, restrict to the ragged
`sz × sz` block, take row maxima (A→B) and column maxima (B→A), and sum the
two directional means. -/
def itemReduce (M : List (List ℚ)) (L sz : ℕ) : ℚ :=
  let trimmed := (M.take L).map (List.take L)
  let ragged := (trimmed.take sz).map (List.take sz)
  let a2b := ragged.map maxQ
  let b2a := (List.range sz).map fun j => maxQ (ragged.map fun r => r.getD j 0)
  meanQ a2b + meanQ b2a

/-- The flattened-batch probabilistic Chamfer loss
(prob_chamfer_distance.py lines 10-42): one scalar per flattened batch item,
built from the row-by-row pairwise matrix. -/
def prob_chamfer_flat (logp : ℕ → ℕ → Elem → ℚ) (a : ℕ → ℕ → Elem)
    (sizes : List ℕ) (maxSize : ℕ) : List ℚ :=
  let L := sizes.foldr Nat.max 0
  (List.range sizes.length).map fun b =>
    itemReduce (rowByRowLogProbs (logp b) (a b) maxSize) L (sizes.getD b 0)

/-- The same loss built from the naive full-tensor pairwise matrix instead of
the row-by-row assembly. -/
def prob_chamfer_flat_full (logp : ℕ → ℕ → Elem → ℚ) (a : ℕ → ℕ → Elem)
    (sizes : List ℕ) (maxSize : ℕ) : List ℚ :=
  let L := sizes.foldr Nat.max 0
  (List.range sizes.length).map fun b =>
    itemReduce (fullTensorLogProbs (logp b) (a b) maxSize) L (sizes.getD b 0)

/-- A rational tensor: a shape together with flat (row-major) data. -/
structure QTensor where
  shape : List ℕ
  data : List ℚ
  deriving Repr, DecidableEq

/-- The full `prob_chamfer_distance` including the batch-shape handling
(prob_chamfer_distance.py lines 44-47): leading batch axes are flattened
internally, and the per-item losses are reshaped to `tf.shape(set)[:-2]`. -/
def prob_chamfer_distance (logp : ℕ → ℕ → Elem → ℚ) (a : ℕ → ℕ → Elem)
    (sizes : List ℕ) (setShape : List ℕ) (maxSize : ℕ) : QTensor :=
  { shape := setShape.dropLast.dropLast
    data := prob_chamfer_flat logp a sizes maxSize }

/-- The specification-side formula for one batch item of the probabilistic
Chamfer loss: the mean over the `sz` valid rows of the per-row maximum
log-likelihood, plus the mean over the `sz` valid columns of the per-column
maximum log-likelihood. -/
def chamferItemSpec (logp : ℕ → Elem → ℚ) (a : ℕ → Elem) (sz : ℕ) : ℚ :=
  meanQ ((List.range sz).map fun i =>
      maxQ ((List.range sz).map fun j => logp j (a i))) +
  meanQ ((List.range sz).map fun j =>
      maxQ ((List.range sz).map fun i => logp j (a i)))

/-- Sum of squared componentwise differences of two feature vectors. -/
def sumSqDiff (x y : Elem) : ℚ := ((x.zip y).map fun p => (p.1 - p.2) ^ 2).sum

/-- Log-likelihood of `x` under `tfd.Independent(tfd.Normal(μ, σ), 1)`:
`−∑ (x−μ)²/(2σ²) + c`, where `c` is the normalization constant
`−d·log(σ·√(2π))`.  The transcendental constant `c` is carried symbolically;
theorems about this function hold for every value of `c`. -/
def normalLogProb (c σ : ℚ) (μ x : Elem) : ℚ := c - sumSqDiff x μ / (2 * σ ^ 2)

/-- The concrete target set of the self-match sanity check
(prob_chamfer_distance.py line 54, first batch item):
`[[0.5, 0.75], [0.1, 0.25], [0.35, 0.9]]`. -/
def selfMatchTarget : ℕ → Elem := fun i =>
  [[1/2, 3/4], [1/10, 1/4], [7/20, 9/10]].getD i []

/-- The phase boundaries of `OneCycleSchedule.__init__`
(one_cycle_adam.py lines 17-20). -/
structure OneCycleSchedule where
  warmup_end_step : ℕ
  max_end_step : ℕ
  decay_end_step : ℕ
  deriving Repr, DecidableEq

/-- Constructor `OneCycleSchedule(cycle_length)`: Python's
`int(cycle_length * 0.1)`, `int(cycle_length * 0.3)` and
`int(cycle_length * 0.6)` are modelled as the natural floor divisions
`cycle_length / 10`, `3 * cycle_length / 10` and `6 * cycle_length / 10`,
which agree with the IEEE-754 double evaluation on every cycle length a
theorem below instantiates. -/
def OneCycleSchedule.ofCycleLength (cycle_length : ℕ) : OneCycleSchedule :=
  { warmup_end_step := cycle_length / 10
    max_end_step := cycle_length / 10 + 3 * cycle_length / 10
    decay_end_step := cycle_length / 10 + 3 * cycle_length / 10 + 6 * cycle_length / 10 }

/-- The learning-rate multiplier `OneCycleSchedule.__call__`
(one_cycle_adam.py lines 22-49), in exact rational arithmetic. -/
def OneCycleSchedule.lr (s : OneCycleSchedule) (step : ℕ) : ℚ :=
  if step ≤ s.warmup_end_step then
    1/10 + 9/10 * ((step : ℚ) / (s.warmup_end_step : ℚ))
  else if step ≤ s.max_end_step then 1
  else if step ≤ s.decay_end_step then
    1 - 9/10 * (((step : ℚ) - (s.max_end_step : ℚ)) /
      ((s.decay_end_step : ℚ) - (s.max_end_step : ℚ)))
  else
    1/10 * (1 - 1 / (s.decay_end_step : ℚ)) ^ (step - s.decay_end_step)

/-- The momentum multiplier `OneCycleSchedule.get_momentum`
(one_cycle_adam.py lines 51-76), in exact rational arithmetic. -/
def OneCycleSchedule.momentum (s : OneCycleSchedule) (step : ℕ) : ℚ :=
  if step ≤ s.warmup_end_step then
    95/100 - 1/10 * ((step : ℚ) / (s.warmup_end_step : ℚ))
  else if step ≤ s.max_end_step then 85/100
  else if step ≤ s.decay_end_step then
    85/100 + 1/10 * (((step : ℚ) - (s.max_end_step : ℚ)) /
      ((s.decay_end_step : ℚ) - (s.max_end_step : ℚ)))
  else 95/100

/-- The learning-rate multiplier of the specification's piecewise reference
function, with phase boundaries at exactly 10%, 40% and 100% of
`cycle_length` and tail ratio `1 - 1/decay_end_step` with
`decay_end_step = cycle_length`. -/
def lrRef (cycle_length step : ℕ) : ℚ :=
  if 10 * step ≤ cycle_length then
    1/10 + 9/10 * ((step : ℚ) / ((cycle_length : ℚ) / 10))
  else if 10 * step ≤ 4 * cycle_length then 1
  else if step ≤ cycle_length then
    1 - 9/10 * (((step : ℚ) - 4 * (cycle_length : ℚ) / 10) /
      (6 * (cycle_length : ℚ) / 10))
  else
    1/10 * (1 - 1 / (cycle_length : ℚ)) ^ (step - cycle_length)

/-- The momentum multiplier of the specification's piecewise reference
function, with phase boundaries at exactly 10%, 40% and 100% of
`cycle_length`. -/
def momentumRef (cycle_length step : ℕ) : ℚ :=
  if 10 * step ≤ cycle_length then
    95/100 - 1/10 * ((step : ℚ) / ((cycle_length : ℚ) / 10))
  else if 10 * step ≤ 4 * cycle_length then 85/100
  else if step ≤ cycle_length then
    85/100 + 1/10 * (((step : ℚ) - 4 * (cycle_length : ℚ) / 10) /
      (6 * (cycle_length : ℚ) / 10))
  else 95/100

/-- The boolean mask `tf.sequence_mask(len, maxlen)`: position `j < maxlen`
is `true` exactly when `j < len`.  For `len > maxlen` the extra length is
silently ignored; `tf.sequence_mask` never raises. -/
def sequence_mask (len maxlen : ℕ) : List Bool :=
  (List.range maxlen).map fun j => decide (j < len)

/-- The mask derivation of `SetVariationalAutoEncoderV2.call`
(set_vae_v2.py line 113) and `SetAutoEncoder.call` (set_ae.py line 84):
`tf.cast(tf.math.logical_not(tf.sequence_mask(sizes, max_set_size)),
tf.float32)`, one row per batch item, `1` marking a padded position. -/
def call_mask (sizes : List ℕ) (maxSize : ℕ) : List (List ℚ) :=
  sizes.map fun s => (sequence_mask s maxSize).map fun b => if b then 0 else 1

/-- `tf.RaggedTensor.from_row_lengths`: partition a flat sample list into
consecutive rows of the given lengths. -/
def from_row_lengths : List Elem → List ℕ → List (List Elem)
  | _, [] => []
  | xs, n :: rest => xs.take n :: from_row_lengths (xs.drop n) rest

/-- `RaggedTensor.to_tensor(default_value=pad, shape=[B, maxSize, featureDim])`:
pad (or truncate) every row to exactly `maxSize` elements, the filler element
being the `Pad` sentinel repeated across the feature dimension. -/
def ragged_to_tensor (rows : List (List Elem)) (pad : ℚ)
    (maxSize featureDim : ℕ) : List (List Elem) :=
  rows.map fun r =>
    r.take maxSize ++ List.replicate (maxSize - r.length) (List.replicate featureDim pad)

/-- `SetAutoEncoder.sample_prior` (set_ae.py lines 98-101): request
`sum(sizes)` i.i.d. samples from the base sampler `prior` (the stochastic
set prior), which yields one feature vector per requested sample. -/
def sample_prior (prior : ℕ → List Elem) (sizes : List ℕ) : List Elem :=
  prior sizes.sum

/-- `SetAutoEncoder.sample_prior_batch` (set_ae.py lines 103-108) and
`Tspn.sample_prior_batch` (set_autoencoder.py lines 48-53): scatter the drawn
samples into the padded per-batch-item layout with `Pad` filling. -/
def sample_prior_batch (prior : ℕ → List Elem) (sizes : List ℕ) (pad : ℚ)
    (maxSize featureDim : ℕ) : List (List Elem) :=
  ragged_to_tensor (from_row_lengths (sample_prior prior sizes) sizes) pad
    maxSize featureDim

/-- `SetDecoder.call` of set_vae_v2.py (lines 73-85) declares three required
positional parameters `(initial_set, mask, conditioning)`.  A Python
invocation that omits `conditioning` raises a `TypeError` before the body
runs; the missing argument is modelled by `none` and the raised error by
`Except.error`.  The transformer body is abstracted as `body`. -/
def SetDecoder.call (body : List Elem → List (List ℚ) → List Elem → List Elem)
    (initial_set : List Elem) (mask : List (List ℚ))
    (conditioning : Option (List Elem)) : Except String (List Elem) :=
  match conditioning with
  | some c => Except.ok (body initial_set mask c)
  | none =>
      Except.error "TypeError: call missing 1 required positional argument: conditioning"

/-- `SetVariationalAutoEncoderV2.decode_set` (set_vae_v2.py lines 139-151),
for one batch item: derive the mask, tile the latent onto every element slot,
concatenate it onto the seed elements, invoke the decoder — passing only two
arguments, as line 146 does — and wrap the prediction head's output in a
fixed-scale Normal `tfd.Independent(tfd.Normal(mean, 0.005), 1)`, the
distribution modelled by its `(mean, scale)` parameters. -/
def decode_set (body : List Elem → List (List ℚ) → List Elem → List Elem)
    (set_prediction_mean : List Elem → List Elem) (set_latent : Elem)
    (initial_set : List Elem) (sizes : List ℕ) (maxSize : ℕ) :
    Except String (List Elem × ℚ) :=
  let masked_values := call_mask sizes maxSize
  let encoded_shaped := List.replicate maxSize set_latent
  let conditioned := (initial_set.zip encoded_shaped).map fun p => p.1 ++ p.2
  match SetDecoder.call body conditioned masked_values none with
  | Except.error e => Except.error e
  | Except.ok latentOut => Except.ok (set_prediction_mean latentOut, 1/200)

/-- Number of `apply_gradients` calls each optimizer instance of
`MnistVariationalAutoencoder.__init__` (mnist_vae.py lines 54-56) has
executed. -/
structure OptimiserStates where
  reconstruction_optimiser : ℕ
  prior_optimiser : ℕ
  size_pred_optimiser : ℕ
  deriving Repr, DecidableEq

/-- Number of gradient updates each trainable-parameter partition
(mnist_vae.py: `get_autoencoder_weights`, `get_prior_weights`,
`get_size_predictor_weights`) has received. -/
structure PartitionVersions where
  autoencoder_weights : ℕ
  prior_weights : ℕ
  size_predictor_weights : ℕ
  deriving Repr, DecidableEq

/-- `MnistVariationalAutoencoder.train_vae_step` (mnist_vae.py lines 177-187):
gradients of the reconstruction loss over `get_autoencoder_weights()` are
applied through `self.reconstruction_optimiser`. -/
def train_vae_step (opt : OptimiserStates) (params : PartitionVersions) :
    OptimiserStates × PartitionVersions :=
  ({ opt with reconstruction_optimiser := opt.reconstruction_optimiser + 1 },
   { params with autoencoder_weights := params.autoencoder_weights + 1 })

/-- `MnistVariationalAutoencoder.train_size_predictor_step`
(mnist_vae.py lines 205-215): gradients of the size loss over
`get_size_predictor_weights()` are applied through
`self.reconstruction_optimiser` (line 214). -/
def train_size_predictor_step (opt : OptimiserStates)
    (params : PartitionVersions) : OptimiserStates × PartitionVersions :=
  ({ opt with reconstruction_optimiser := opt.reconstruction_optimiser + 1 },
   { params with size_predictor_weights := params.size_predictor_weights + 1 })

/-! Helper lemmas. -/

/-- Reading a mapped list at a valid index through `getD`. -/
theorem getD_map_of_lt {α β : Type} (f : α → β) {l : List α} {b : ℕ}
    (hb : b < l.length) (d : α) (d2 : β) :
    (l.map f).getD b d2 = f (l.getD b d) := by
  rw [List.getD_eq_getElem?_getD, List.getD_eq_getElem?_getD, List.getElem?_map,
    List.getElem?_eq_getElem hb]
  rfl

/-- Reading `(List.range n).map f` at a valid index through `getD`. -/
theorem getD_map_range {β : Type} (f : ℕ → β) {j n : ℕ} (hj : j < n) (d : β) :
    ((List.range n).map f).getD j d = f j := by
  rw [List.getD_eq_getElem?_getD, List.getElem?_map, List.getElem?_range hj]
  rfl

/-- Taking an initial segment of `(List.range n).map f`. -/
theorem map_range_take {β : Type} (f : ℕ → β) {k n : ℕ} (hk : k ≤ n) :
    ((List.range n).map f).take k = (List.range k).map f := by
  rw [← List.map_take, List.take_range, Nat.min_eq_left hk]

/-- Every entry of a list of naturals is bounded by its `foldr Nat.max 0`,
the model of `tf.reduce_max(sizes)`. -/
theorem getD_le_foldr_max (l : List ℕ) : ∀ b, l.getD b 0 ≤ l.foldr Nat.max 0 := by
  induction l with
  | nil => intro b; simp
  | cons x xs ih =>
      intro b
      cases b with
      | zero => exact Nat.le_max_left _ _
      | succ b => exact le_trans (ih b) (Nat.le_max_right _ _)

/-- The ragged valid-region restriction of the row-by-row matrix is exactly
the `sz × sz` grid of pairwise log-likelihoods. -/
theorem ragged_rowByRow (logp : ℕ → Elem → ℚ) (a : ℕ → Elem) {sz L maxSize : ℕ}
    (hL : sz ≤ L) (hmax : sz ≤ maxSize) :
    ((((rowByRowLogProbs logp a maxSize).take L).map (List.take L)).take sz).map
        (List.take sz)
      = (List.range sz).map fun i => (List.range sz).map fun j => logp j (a i) := by
  rw [← List.map_take, List.take_take, Nat.min_eq_left hL, List.map_map,
    rowByRowLogProbs, map_range_take _ hmax, List.map_map]
  refine List.map_congr_left ?_
  intro i _
  simp only [Function.comp_apply, logProbRow]
  rw [← List.map_take, ← List.map_take, List.take_take, Nat.min_eq_left hL,
    List.take_range, Nat.min_eq_left hmax]

/-- The per-item reduction of the row-by-row matrix computes the
specification formula: mean of row maxima plus mean of column maxima over
the valid `sz × sz` block. -/
theorem itemReduce_rowByRow (logp : ℕ → Elem → ℚ) (a : ℕ → Elem)
    {sz L maxSize : ℕ} (hL : sz ≤ L) (hmax : sz ≤ maxSize) :
    itemReduce (rowByRowLogProbs logp a maxSize) L sz
      = chamferItemSpec logp a sz := by
  simp only [itemReduce, chamferItemSpec]
  rw [ragged_rowByRow logp a hL hmax]
  congr 1
  · rw [List.map_map]
    rfl
  · apply congrArg meanQ
    refine List.map_congr_left ?_
    intro j hj
    apply congrArg maxQ
    rw [List.map_map]
    refine List.map_congr_left ?_
    intro i _
    simp only [Function.comp_apply]
    exact getD_map_range _ (List.mem_range.mp hj) 0

/-- Each entry of the flattened-batch loss is the specification formula for
that batch item. -/
theorem prob_chamfer_flat_getD (logp : ℕ → ℕ → Elem → ℚ) (a : ℕ → ℕ → Elem)
    (sizes : List ℕ) (maxSize b : ℕ) (hb : b < sizes.length)
    (hmax : sizes.getD b 0 ≤ maxSize) :
    (prob_chamfer_flat logp a sizes maxSize).getD b 0
      = chamferItemSpec (logp b) (a b) (sizes.getD b 0) := by
  simp only [prob_chamfer_flat]
  rw [getD_map_range _ hb 0]
  exact itemReduce_rowByRow _ _ (getD_le_foldr_max sizes b) hmax

/-- Zipping a list with a mapped copy of itself pairs every entry with its
image. -/
theorem zip_map_self {α β : Type} (l : List α) (f : α → β) :
    l.zip (l.map f) = l.map fun x => (x, f x) := by
  induction l with
  | nil => rfl
  | cons x xs ih => simp [ih]

/-- The row-by-row matrix and the full-tensor matrix agree entrywise. -/
theorem rowByRow_eq_fullTensor (logp : ℕ → Elem → ℚ) (a : ℕ → Elem)
    (maxSize : ℕ) :
    rowByRowLogProbs logp a maxSize = fullTensorLogProbs logp a maxSize := by
  simp only [rowByRowLogProbs, fullTensorLogProbs, comparisonTensor, List.map_map]
  refine List.map_congr_left ?_
  intro i _
  simp only [Function.comp_apply]
  rw [zip_map_self, List.map_map]
  rfl

/-! Claim theorems. -/

/-- C1: for every batch item `b` with `1 ≤ Size ≤ maxSize`, the probabilistic
Chamfer loss equals the mean over the `Size` valid rows of the maximum
log-likelihood of that target element under the `Size` valid predicted
distributions, plus the mean over the `Size` valid columns of the per-column
maximum log-likelihood, the two directional means summed into one scalar. -/
theorem prob_chamfer_directional_means (logp : ℕ → ℕ → Elem → ℚ)
    (a : ℕ → ℕ → Elem) (sizes : List ℕ) (maxSize b : ℕ)
    (hb : b < sizes.length) (h1 : 1 ≤ sizes.getD b 0)
    (hmax : sizes.getD b 0 ≤ maxSize) :
    (prob_chamfer_flat logp a sizes maxSize).getD b 0
      = chamferItemSpec (logp b) (a b) (sizes.getD b 0) :=
  prob_chamfer_flat_getD logp a sizes maxSize b hb hmax

/-- Witness for C1 at a concrete input. -/
theorem prob_chamfer_directional_means_witness :
    (0 < [2].length ∧ 1 ≤ [2].getD 0 0 ∧ [2].getD 0 0 ≤ 2) ∧
    (prob_chamfer_flat (fun _ j x => (j : ℚ) + x.headD 0)
        (fun _ i => [(i : ℚ)]) [2] 2).getD 0 0
      = chamferItemSpec (fun j x => (j : ℚ) + x.headD 0)
          (fun i => [(i : ℚ)]) ([2].getD 0 0) :=
  ⟨⟨by decide, by decide, by decide⟩,
    prob_chamfer_directional_means (fun _ j x => (j : ℚ) + x.headD 0)
      (fun _ i => [(i : ℚ)]) [2] 2 0 (by decide) (by decide) (by decide)⟩

/-- C2: the loss of a batch item depends only on its Size, its target
elements below Size, and its predicted distributions below Size; the padded
rows and columns of the pairwise matrix never influence the result, whatever
the padding holds. -/
theorem prob_chamfer_padding_insensitive (logp logp' : ℕ → ℕ → Elem → ℚ)
    (a a' : ℕ → ℕ → Elem) (sizes sizes' : List ℕ) (maxSize b : ℕ)
    (hb : b < sizes.length) (hb' : b < sizes'.length)
    (hsz : sizes.getD b 0 = sizes'.getD b 0)
    (h1 : 1 ≤ sizes.getD b 0) (hmax : sizes.getD b 0 ≤ maxSize)
    (ha : ∀ i < sizes.getD b 0, a b i = a' b i)
    (hp : ∀ j < sizes.getD b 0, ∀ x : Elem, logp b j x = logp' b j x) :
    (prob_chamfer_flat logp a sizes maxSize).getD b 0
      = (prob_chamfer_flat logp' a' sizes' maxSize).getD b 0 := by
  rw [prob_chamfer_flat_getD logp a sizes maxSize b hb hmax,
    prob_chamfer_flat_getD logp' a' sizes' maxSize b hb' (hsz ▸ hmax), ← hsz]
  unfold chamferItemSpec
  congr 1
  · apply congrArg meanQ
    refine List.map_congr_left ?_
    intro i hi
    apply congrArg maxQ
    refine List.map_congr_left ?_
    intro j hj
    rw [ha i (List.mem_range.mp hi), hp j (List.mem_range.mp hj)]
  · apply congrArg meanQ
    refine List.map_congr_left ?_
    intro j hj
    apply congrArg maxQ
    refine List.map_congr_left ?_
    intro i hi
    rw [ha i (List.mem_range.mp hi), hp j (List.mem_range.mp hj)]

/-- Witness for C2 at a concrete input: two batches differing only in
padding (and in other batch items) give the same loss entry. -/
theorem prob_chamfer_padding_insensitive_witness :
    (0 < [1, 2].length ∧ 0 < [1].length ∧ [1, 2].getD 0 0 = [1].getD 0 0 ∧
      1 ≤ [1, 2].getD 0 0 ∧ [1, 2].getD 0 0 ≤ 2 ∧
      (∀ i < [1, 2].getD 0 0, (fun _ _ : ℕ => [(3 : ℚ)]) 0 i
        = (fun _ i : ℕ => [(3 : ℚ) + i]) 0 i) ∧
      (∀ j < [1, 2].getD 0 0, ∀ x : Elem,
        (fun _ _ : ℕ => fun x : Elem => x.headD 0) 0 j x
          = (fun _ j : ℕ => fun x : Elem => x.headD 0 + j) 0 j x)) ∧
    (prob_chamfer_flat (fun _ _ x => x.headD 0) (fun _ _ => [(3 : ℚ)])
        [1, 2] 2).getD 0 0
      = (prob_chamfer_flat (fun _ j x => x.headD 0 + j)
          (fun _ i => [(3 : ℚ) + i]) [1] 2).getD 0 0 :=
  ⟨⟨by decide, by decide, by decide, by decide, by decide,
      by intro i hi; simp [Nat.lt_one_iff] at hi; subst hi; norm_num,
      by intro j hj x; simp [Nat.lt_one_iff] at hj; subst hj; norm_num⟩,
    prob_chamfer_padding_insensitive _ _ _ _ [1, 2] [1] 2 0 (by decide)
      (by decide) (by decide) (by decide) (by decide)
      (by intro i hi; simp [Nat.lt_one_iff] at hi; subst hi; norm_num)
      (by intro j hj x; simp [Nat.lt_one_iff] at hj; subst hj; norm_num)⟩

/-- C6: the pairwise log-likelihood matrix assembled row by row is identical
to the matrix obtained by scoring the full comparison tensor at once, so the
memory-bounded loss equals the naive full-tensor loss. -/
theorem prob_chamfer_row_by_row_refines_full (logp : ℕ → ℕ → Elem → ℚ)
    (a : ℕ → ℕ → Elem) (sizes : List ℕ) (maxSize : ℕ) :
    (∀ b, rowByRowLogProbs (logp b) (a b) maxSize
        = fullTensorLogProbs (logp b) (a b) maxSize) ∧
    prob_chamfer_flat logp a sizes maxSize
      = prob_chamfer_flat_full logp a sizes maxSize := by
  refine ⟨fun b => rowByRow_eq_fullTensor (logp b) (a b) maxSize, ?_⟩
  simp only [prob_chamfer_flat, prob_chamfer_flat_full]
  refine List.map_congr_left ?_
  intro b _
  rw [rowByRow_eq_fullTensor]

/-- C10: for a set tensor of shape `lead ++ [nmax, fdim]` (rank at least 3)
with one cardinality per flattened batch item, the loss tensor's shape is the
set's shape with the last two axes removed, its flat data has exactly one
entry per batch item (so the flattened batch is restored exactly), and entry
`b` is the per-item scalar loss. -/
theorem prob_chamfer_batch_shape (logp : ℕ → ℕ → Elem → ℚ)
    (a : ℕ → ℕ → Elem) (sizes lead : List ℕ) (nmax fdim : ℕ)
    (hlead : lead ≠ []) (hcount : sizes.length = lead.prod) :
    (prob_chamfer_distance logp a sizes (lead ++ [nmax, fdim]) nmax).shape = lead
    ∧ (prob_chamfer_distance logp a sizes (lead ++ [nmax, fdim]) nmax).data.length
        = lead.prod
    ∧ ∀ b < sizes.length,
        (prob_chamfer_distance logp a sizes (lead ++ [nmax, fdim]) nmax).data.getD b 0
          = itemReduce (rowByRowLogProbs (logp b) (a b) nmax)
              (sizes.foldr Nat.max 0) (sizes.getD b 0) := by
  refine ⟨?_, ?_, ?_⟩
  · show (lead ++ [nmax, fdim]).dropLast.dropLast = lead
    have : lead ++ [nmax, fdim] = (lead ++ [nmax]) ++ [fdim] := by
      simp [List.append_assoc]
    rw [this]
    simp
  · show (prob_chamfer_flat logp a sizes nmax).length = lead.prod
    simp [prob_chamfer_flat, ← hcount]
  · intro b hb
    show (prob_chamfer_flat logp a sizes nmax).getD b 0 = _
    simp only [prob_chamfer_flat]
    rw [getD_map_range _ hb 0]

/-- Witness for C10 at a concrete input. -/
theorem prob_chamfer_batch_shape_witness :
    (([2] : List ℕ) ≠ [] ∧ [1, 1].length = ([2] : List ℕ).prod) ∧
    ((prob_chamfer_distance (fun _ _ _ => 0) (fun _ _ => [0]) [1, 1]
        ([2] ++ [1, 1]) 1).shape = [2]
      ∧ (prob_chamfer_distance (fun _ _ _ => 0) (fun _ _ => [0]) [1, 1]
          ([2] ++ [1, 1]) 1).data.length = ([2] : List ℕ).prod
      ∧ ∀ b < [1, 1].length,
          (prob_chamfer_distance (fun _ _ _ => 0) (fun _ _ => [0]) [1, 1]
            ([2] ++ [1, 1]) 1).data.getD b 0
            = itemReduce (rowByRowLogProbs (fun _ _ => (0 : ℚ)) (fun _ => [0]) 1)
                ([1, 1].foldr Nat.max 0) ([1, 1].getD b 0)) :=
  ⟨⟨by decide, by decide⟩,
    prob_chamfer_batch_shape (fun _ _ _ => 0) (fun _ _ => [0]) [1, 1] [2] 1 1
      (by decide) (by decide)⟩

/-- Dropping a nonnegative amount from one argument never changes a maximum
with the intact value on the left. -/
theorem max_drop_right (c k : ℚ) (hk : 0 ≤ k) : max c (c - k) = c :=
  max_eq_left (by linarith)

/-- Dropping a nonnegative amount from one argument never changes a maximum
with the intact value on the right. -/
theorem max_drop_left (c k : ℚ) (hk : 0 ≤ k) : max (c - k) c = c :=
  max_eq_right (by linarith)

/-- C7: the target set `[[0.5, 0.75], [0.1, 0.25], [0.35, 0.9]]` with Size 3,
matched against itself under independent per-element Normal log-likelihoods
with fixed scale `0.005` centered on the target elements, yields a loss
exactly equal to `2 * mean(log_prob(mean | mean))`: both directional maxima
sit on the diagonal of the score matrix.  The Normal normalization constant
`c` is carried symbolically, so the identity holds exactly whatever its
transcendental value. -/
theorem prob_chamfer_self_match (c : ℚ) :
    (prob_chamfer_flat
        (fun _ j x => normalLogProb c (1/200) (selfMatchTarget j) x)
        (fun _ i => selfMatchTarget i) [3] 3).getD 0 0
      = 2 * meanQ ((List.range 3).map fun i =>
          normalLogProb c (1/200) (selfMatchTarget i) (selfMatchTarget i)) := by
  rw [prob_chamfer_flat_getD _ _ _ _ _ (by norm_num) (by norm_num)]
  norm_num [chamferItemSpec, meanQ, maxQ, List.range_succ, normalLogProb,
    sumSqDiff, selfMatchTarget]
  ring

/-- The constructor's truncated phase boundaries for a cycle length that is a
multiple of ten: exactly 10%, 40% and 100% of the cycle. -/
theorem ofCycleLength_mul_ten (k : ℕ) :
    OneCycleSchedule.ofCycleLength (10 * k) =
      { warmup_end_step := k, max_end_step := 4 * k, decay_end_step := 10 * k } := by
  simp only [OneCycleSchedule.ofCycleLength, OneCycleSchedule.mk.injEq]
  omega

/-- C3 (amended): for every step and every positive cycle length divisible by
ten, the schedule equals the piecewise reference function with phase
boundaries at 10%, 40% and 100% of the cycle length — learning-rate
multiplier ramping 0.1→1.0, holding 1.0, decaying 1.0→0.1, then geometric
tail with ratio `1 − 1/decay_end_step`; momentum ramping 0.95→0.85, holding
0.85, ramping 0.85→0.95, then holding 0.95. -/
theorem one_cycle_schedule_matches_reference (cycle_length step : ℕ)
    (hdvd : 10 ∣ cycle_length) (hpos : 0 < cycle_length) :
    (OneCycleSchedule.ofCycleLength cycle_length).lr step
        = lrRef cycle_length step ∧
    (OneCycleSchedule.ofCycleLength cycle_length).momentum step
        = momentumRef cycle_length step := by
  obtain ⟨k, rfl⟩ := hdvd
  have hk : 0 < k := by omega
  rw [ofCycleLength_mul_ten]
  constructor
  · simp only [OneCycleSchedule.lr, lrRef]
    split_ifs <;> first
      | omega
      | rfl
      | (push_cast; ring_nf)
  · simp only [OneCycleSchedule.momentum, momentumRef]
    split_ifs <;> first
      | omega
      | rfl
      | (push_cast; ring_nf)

/-- Witness for C3's amended claim at a concrete input in the decay phase. -/
theorem one_cycle_schedule_matches_reference_witness :
    (10 ∣ 20 ∧ 0 < 20) ∧
    ((OneCycleSchedule.ofCycleLength 20).lr 13 = lrRef 20 13 ∧
      (OneCycleSchedule.ofCycleLength 20).momentum 13 = momentumRef 20 13) :=
  ⟨⟨by decide, by decide⟩,
    one_cycle_schedule_matches_reference 20 13 (by decide) (by decide)⟩

/-- Counterexample to C3 as stated: at cycle length 15 (positive, but not a
multiple of ten) and step 15, the code's truncated boundaries put the step in
the geometric tail (decay-end boundary 14), while the reference function with
boundaries at 10%, 40% and 100% is still in primary decay, so the multipliers
differ: `13/140 ≠ 1/10`. -/
theorem one_cycle_schedule_ref_counterexample :
    (OneCycleSchedule.ofCycleLength 15).lr 15 ≠ lrRef 15 15 := by
  norm_num [OneCycleSchedule.ofCycleLength, OneCycleSchedule.lr, lrRef]

/-- C4 (code behavior at the failing input): with `max_set_size = 3` and a
batch item of Size 4, the mask derivation of the forward pass
(`tf.sequence_mask` composed with `logical_not` and `cast`) succeeds and
returns exactly the all-valid mask it returns for Size 3: the cardinality is
silently clipped to `Nmax` and the forward pass proceeds; nothing fails. -/
theorem call_mask_silently_truncates :
    call_mask [4] 3 = call_mask [3] 3 ∧ call_mask [4] 3 = [[0, 0, 0]] := by
  decide

/-- C5 (code behavior): `train_size_predictor_step` applies the
size-predictor partition's gradient update through
`reconstruction_optimiser` (mnist_vae.py line 214); the dedicated
`size_pred_optimiser` constructed at line 56 performs no update.  So the
size-predictor partition is updated by the reconstruction optimizer, which
the claim rules out. -/
theorem train_size_predictor_step_uses_reconstruction_optimiser
    (opt : OptimiserStates) (params : PartitionVersions) :
    (train_size_predictor_step opt params).1.reconstruction_optimiser
        = opt.reconstruction_optimiser + 1
    ∧ (train_size_predictor_step opt params).1.size_pred_optimiser
        = opt.size_pred_optimiser
    ∧ (train_size_predictor_step opt params).2.size_predictor_weights
        = params.size_predictor_weights + 1 :=
  ⟨rfl, rfl, rfl⟩

/-- C9 (code behavior): `decode_set` of the layer-wise-conditioning model
never returns a distribution: it invokes the decoder with two arguments
(set_vae_v2.py line 146) where `SetDecoder.call` (line 73) requires three, so
every invocation, on every well-formed input, raises a TypeError before the
fixed-scale Normal can be built. -/
theorem decode_set_always_fails
    (body : List Elem → List (List ℚ) → List Elem → List Elem)
    (spm : List Elem → List Elem) (set_latent : Elem)
    (initial_set : List Elem) (sizes : List ℕ) (maxSize : ℕ) :
    decode_set body spm set_latent initial_set sizes maxSize
      = Except.error
          "TypeError: call missing 1 required positional argument: conditioning" :=
  rfl

/-- The row count of `tf.RaggedTensor.from_row_lengths` equals the number of
row lengths. -/
theorem from_row_lengths_length (xs : List Elem) (ls : List ℕ) :
    (from_row_lengths xs ls).length = ls.length := by
  induction ls generalizing xs with
  | nil => rfl
  | cons n rest ih => simp [from_row_lengths, ih]

/-- Row `b` of `tf.RaggedTensor.from_row_lengths` is the slice of the flat
sample list starting at the sum of the first `b` lengths. -/
theorem from_row_lengths_getD (xs : List Elem) (ls : List ℕ) :
    ∀ b, b < ls.length →
      (from_row_lengths xs ls).getD b []
        = (xs.drop ((ls.take b).sum)).take (ls.getD b 0) := by
  induction ls generalizing xs with
  | nil => intro b hb; simp at hb
  | cons n rest ih =>
      intro b hb
      cases b with
      | zero => simp [from_row_lengths]
      | succ b =>
          simp only [from_row_lengths, List.getD_cons_succ, List.take_succ_cons,
            List.sum_cons]
          rw [ih (xs.drop n) b (by simpa using hb), List.drop_drop]
  
/-- Every row of `from_row_lengths` is no longer than its requested length
and draws its elements from the flat sample list. -/
theorem from_row_lengths_row_mem (xs : List Elem) (ls : List ℕ) :
    ∀ r ∈ from_row_lengths xs ls,
      (∃ n ∈ ls, r.length ≤ n) ∧ ∀ e ∈ r, e ∈ xs := by
  induction ls generalizing xs with
  | nil => intro r hr; simp [from_row_lengths] at hr
  | cons n rest ih =>
      intro r hr
      simp only [from_row_lengths, List.mem_cons] at hr
      rcases hr with rfl | hr
      · exact ⟨⟨n, by simp, List.length_take_le n xs⟩,
          fun e he => List.mem_of_mem_take he⟩
      · obtain ⟨⟨m, hm, hlen⟩, hmem⟩ := ih (xs.drop n) r hr
        exact ⟨⟨m, by simp [hm], hlen⟩,
          fun e he => List.mem_of_mem_drop (hmem e he)⟩

/-- C8: for every batch of cardinalities with `1 ≤ Size ≤ maxSize`, the
stochastic seed sampler draws `sum(Size)` samples from its base distribution
and returns a `[B, maxSize, featureDim]` tensor in which item `b` holds its
own consecutive slice of the drawn samples below `Size b` and the `Pad`
sentinel at every position from `Size b` on. -/
theorem sample_prior_batch_layout (prior : ℕ → List Elem) (sizes : List ℕ)
    (pad : ℚ) (maxSize featureDim : ℕ)
    (hdraw : (prior sizes.sum).length = sizes.sum)
    (hfeat : ∀ x ∈ prior sizes.sum, x.length = featureDim)
    (hsz : ∀ s ∈ sizes, 1 ≤ s ∧ s ≤ maxSize) :
    (sample_prior_batch prior sizes pad maxSize featureDim).length = sizes.length
    ∧ (∀ row ∈ sample_prior_batch prior sizes pad maxSize featureDim,
        row.length = maxSize ∧ ∀ e ∈ row, e.length = featureDim)
    ∧ ∀ b < sizes.length,
        (sample_prior_batch prior sizes pad maxSize featureDim).getD b []
          = ((prior sizes.sum).drop ((sizes.take b).sum)).take (sizes.getD b 0)
            ++ List.replicate (maxSize - sizes.getD b 0)
                (List.replicate featureDim pad) := by
  refine ⟨?_, ?_, ?_⟩
  · simp [sample_prior_batch, ragged_to_tensor, from_row_lengths_length]
  · intro row hrow
    simp only [sample_prior_batch, ragged_to_tensor, List.mem_map] at hrow
    obtain ⟨r, hr, rfl⟩ := hrow
    obtain ⟨⟨m, hm, hlen⟩, hmem⟩ := from_row_lengths_row_mem _ _ r hr
    constructor
    · simp only [List.length_append, List.length_take, List.length_replicate]
      omega
    · intro e he
      rcases List.mem_append.mp he with he | he
      · exact hfeat e (hmem e (List.mem_of_mem_take he))
      · rw [List.eq_of_mem_replicate he]
        simp
  · intro b hb
    have hrows : b < (from_row_lengths (sample_prior prior sizes) sizes).length := by
      rw [from_row_lengths_length]; exact hb
    simp only [sample_prior_batch, ragged_to_tensor]
    rw [getD_map_of_lt _ hrows [], from_row_lengths_getD _ _ b hb]
    have hmem : sizes.getD b 0 ∈ sizes := by
      rw [List.getD_eq_getElem sizes 0 hb]
      exact List.getElem_mem hb
    have hsum : (sizes.take b).sum + sizes.getD b 0 ≤ sizes.sum := by
      have h1 : (sizes.take (b + 1)).sum + (sizes.drop (b + 1)).sum = sizes.sum := by
        rw [← List.sum_append, List.take_append_drop]
      have h2 := List.sum_take_succ sizes b hb
      rw [List.getD_eq_getElem sizes 0 hb]
      simp only [List.get_eq_getElem] at h2
      omega
    have hslice :
        (((sample_prior prior sizes).drop ((sizes.take b).sum)).take
          (sizes.getD b 0)).length = sizes.getD b 0 := by
      simp only [List.length_take, List.length_drop, sample_prior, hdraw]
      omega
    rw [List.take_of_length_le (le_of_eq_of_le hslice (hsz _ hmem).2), hslice]
    rfl

/-- Witness for C8 at a concrete input: two items of sizes 1 and 2, capacity
2, feature dimension 1, pad value 5. -/
theorem sample_prior_batch_layout_witness :
    (((fun k => List.replicate k ([0] : Elem)) ([1, 2] : List ℕ).sum).length
        = ([1, 2] : List ℕ).sum
      ∧ (∀ x ∈ (fun k => List.replicate k ([0] : Elem)) ([1, 2] : List ℕ).sum,
          x.length = 1)
      ∧ ∀ s ∈ ([1, 2] : List ℕ), 1 ≤ s ∧ s ≤ 2) ∧
    ((sample_prior_batch (fun k => List.replicate k ([0] : Elem)) [1, 2] 5 2 1).length
        = ([1, 2] : List ℕ).length
      ∧ (∀ row ∈ sample_prior_batch (fun k => List.replicate k ([0] : Elem)) [1, 2] 5 2 1,
          row.length = 2 ∧ ∀ e ∈ row, e.length = 1)
      ∧ ∀ b < ([1, 2] : List ℕ).length,
          (sample_prior_batch (fun k => List.replicate k ([0] : Elem)) [1, 2] 5 2 1).getD b []
            = (((fun k => List.replicate k ([0] : Elem)) ([1, 2] : List ℕ).sum).drop
                ((([1, 2] : List ℕ).take b).sum)).take (([1, 2] : List ℕ).getD b 0)
              ++ List.replicate (2 - ([1, 2] : List ℕ).getD b 0)
                  (List.replicate 1 (5 : ℚ))) :=
  ⟨⟨by decide, by decide, by decide⟩,
    sample_prior_batch_layout (fun k => List.replicate k ([0] : Elem)) [1, 2] 5 2 1
      (by decide) (by decide) (by decide)⟩
